import Mathlib

/-
Verification of the task-management server core (hello_server/server.py).

The Python source keeps three module-level dictionaries (tasks_storage,
projects_storage, time_entries_storage) keyed by string ids, and exposes
tool functions that read and mutate them.  The shallow embedding below
models each dictionary as an insertion-ordered association list with
unique keys (Python dicts preserve insertion order; assigning to an
existing key keeps its position, which `putL` reproduces), models
`datetime` values as integer epoch seconds, Python floats as rationals,
and ISO date-string arguments by their parse results
(`Option (Option Int)`: `none` = argument absent or empty/falsy string,
`some none` = non-empty string that fails `datetime.fromisoformat`,
`some (some d)` = string parsing to instant `d`).  Each tool function is
translated into a pure function from the store (plus a `now` argument for
`datetime.now()` and caller-supplied fresh ids for `uuid.uuid4()`) to a
structured result mirroring the returned message, paired with the new
store.
-/

namespace TaskServer

/-- Priority enum of the source (`class Priority(str, Enum)`). -/
inductive Priority where
  | low
  | medium
  | high
  | urgent
deriving DecidableEq

/-- TaskStatus enum of the source. -/
inductive TaskStatus where
  | todo
  | in_progress
  | review
  | completed
  | cancelled
deriving DecidableEq

/-- TaskCategory enum of the source. -/
inductive TaskCategory where
  | work
  | personal
  | learning
  | health
  | finance
  | other
deriving DecidableEq

/-- The `Task` pydantic model.  Timestamps are epoch seconds (`Int`), float
fields are rationals. -/
structure Task where
  id : String
  title : String
  description : Option String
  priority : Priority
  status : TaskStatus
  category : TaskCategory
  due_date : Option Int
  created_at : Int
  updated_at : Int
  estimated_hours : Option ℚ
  actual_hours : Option ℚ
  tags : List String
  dependencies : List String
  assignee : Option String
  project_id : Option String
deriving DecidableEq

/-- The `TimeEntry` pydantic model.  `end_time = none` means the entry is an
open (running) timer. -/
structure TimeEntry where
  id : String
  task_id : String
  start_time : Int
  end_time : Option Int
  description : Option String
  duration_minutes : Option Int
deriving DecidableEq

/-- The `Project` pydantic model. -/
structure Project where
  id : String
  name : String
  description : Option String
  start_date : Option Int
  end_date : Option Int
  status : String
  team_members : List String
  budget : Option ℚ
  created_at : Int
deriving DecidableEq

/-- The parts of `ConfigSchema` consumed by the embedded operations. -/
structure Config where
  default_priority : Priority
  default_category : TaskCategory
  work_hours_per_day : ℚ
deriving DecidableEq

/-- The three module-level storages. -/
structure Store where
  tasks : List (String × Task)
  projects : List (String × Project)
  time_entries : List (String × TimeEntry)
deriving DecidableEq

/-- The storages start empty at module load. -/
def emptyStore : Store := ⟨[], [], []⟩

/-! Association-list primitives modelling Python dict operations (on
insertion-ordered dicts with unique keys). -/

/-- Dict assignment `m[k] = v`: replace in place if the key is present
(keeping its position, as Python dicts do), otherwise append. -/
def putL (k : String) (v : α) : List (String × α) → List (String × α)
  | [] => [(k, v)]
  | p :: ps => if p.1 == k then (k, v) :: ps else p :: putL k v ps

/-- Dict deletion `m.pop(k)` (all pairs with key `k`; with unique keys this
is the single entry). -/
def eraseL (k : String) (l : List (String × α)) : List (String × α) :=
  l.filter (fun p => !(p.1 == k))

/-- Dict lookup `m.get(k)` / `k in m`. -/
def lookupL (k : String) (l : List (String × α)) : Option α :=
  (l.find? (fun p => p.1 == k)).map (·.2)

/-- Python truthiness of an `Optional[str]` (`None` and `""` are falsy). -/
def truthyS : Option String → Bool
  | none => false
  | some s => !(s == "")

/-- Python truthiness of an `Optional[float]` (`None` and `0.0` are falsy). -/
def truthyQ : Option ℚ → Bool
  | none => false
  | some q => !(q == 0)

/-- Field patch `if arg is not None: field = arg` for an optional field. -/
def patchOpt (arg old : Option α) : Option α :=
  match arg with
  | some v => some v
  | none => old

/-- The predicate used by `start_timer`/`stop_timer` to locate an active
timer: `entry.task_id == task_id and entry.end_time is None`. -/
def openFor (task_id : String) (e : TimeEntry) : Bool :=
  e.task_id == task_id && e.end_time.isNone

/-- Number of open time entries associated with a task (the quantity bounded
by Invariant I1). -/
def openCount (task_id : String) (l : List (String × TimeEntry)) : Nat :=
  l.countP (fun p => openFor task_id p.2)

/-! Structured results mirroring the strings returned by each tool. -/

inductive CreateResult where
  | invalidDate
  | created (id : String)
deriving DecidableEq

inductive UpdateResult where
  | notFound
  | invalidDate
  | ok
deriving DecidableEq

inductive DeleteResult where
  | notFound
  | deleted (title : String) (entriesRemoved : Nat)
deriving DecidableEq

inductive StartResult where
  | notFound
  | alreadyRunning (since : Int)
  | started (entryId : String) (startedAt : Int)
deriving DecidableEq

inductive StopResult where
  | entryNotFound
  | noActiveTimer
  | noSelector
  | alreadyStopped
  | taskKeyError
  | stopped (durationMinutes : Int) (totalHours : ℚ)
deriving DecidableEq

inductive LogResult where
  | notFound
  | invalidDate
  | logged (durationMinutes : Int) (totalHours : ℚ)
deriving DecidableEq

/-- `create_task`.  `priority or session_config.default_priority` (enum
members are always truthy, so `or` behaves as `getD`); likewise for
`category`; `tags or []`; a malformed `due_date` string aborts before any
store mutation; the new task gets `status=TODO`, `created_at=updated_at=now`
and is inserted under its fresh id. -/
def create_task (st : Store) (cfg : Config) (id title : String)
    (description : Option String) (priority : Option Priority)
    (category : Option TaskCategory) (due_date : Option (Option Int))
    (estimated_hours : Option ℚ) (tags : Option (List String))
    (project_id assignee : Option String) (now : Int) : CreateResult × Store :=
  let task_priority := priority.getD cfg.default_priority
  let task_category := category.getD cfg.default_category
  match due_date with
  | some none => (.invalidDate, st)
  | dd =>
    let parsed : Option Int := match dd with | some (some d) => some d | _ => none
    let task : Task :=
      { id := id, title := title, description := description,
        priority := task_priority, status := .todo, category := task_category,
        due_date := parsed, created_at := now, updated_at := now,
        estimated_hours := estimated_hours, actual_hours := none,
        tags := tags.getD [], dependencies := [], assignee := assignee,
        project_id := project_id }
    (.created id, { st with tasks := putL id task st.tasks })

/-- `update_task`.  The Python code mutates the stored task field by field:
title, description, priority, status and category are written BEFORE the
`due_date` string is parsed, so a malformed date returns an error with those
five fields already applied (and `updated_at`, set only at the end, not
touched); on success the remaining fields and `updated_at = now` are
applied too. -/
def update_task (st : Store) (task_id : String)
    (title description : Option String) (priority : Option Priority)
    (status : Option TaskStatus) (category : Option TaskCategory)
    (due_date : Option (Option Int)) (estimated_hours actual_hours : Option ℚ)
    (tags : Option (List String)) (assignee : Option String) (now : Int) :
    UpdateResult × Store :=
  match lookupL task_id st.tasks with
  | none => (.notFound, st)
  | some task0 =>
    let t5 : Task :=
      { task0 with
        title := title.getD task0.title,
        description := patchOpt description task0.description,
        priority := priority.getD task0.priority,
        status := status.getD task0.status,
        category := category.getD task0.category }
    match due_date with
    | some none => (.invalidDate, { st with tasks := putL task_id t5 st.tasks })
    | dd =>
      let t11 : Task :=
        { t5 with
          due_date := (match dd with | some (some d) => some d | _ => t5.due_date),
          estimated_hours := patchOpt estimated_hours t5.estimated_hours,
          actual_hours := patchOpt actual_hours t5.actual_hours,
          tags := tags.getD t5.tags,
          assignee := patchOpt assignee t5.assignee,
          updated_at := now }
      (.ok, { st with tasks := putL task_id t11 st.tasks })

/-- `delete_task`: pops the task, removes every time entry whose `task_id`
matches, and reports the removed-entry count. -/
def delete_task (st : Store) (task_id : String) : DeleteResult × Store :=
  match lookupL task_id st.tasks with
  | none => (.notFound, st)
  | some task =>
    let removed := st.time_entries.filter (fun p => p.2.task_id == task_id)
    (.deleted task.title removed.length,
      { st with
        tasks := eraseL task_id st.tasks,
        time_entries := st.time_entries.filter (fun p => !(p.2.task_id == task_id)) })

/-- Priority rank table `priority_order` of `list_tasks` (`.get(t.priority, 0)`
with all four members present). -/
def rankOf : Priority → Nat
  | .urgent => 4
  | .high => 3
  | .medium => 2
  | .low => 1

/-- Comparison of the secondary sort key `t.due_date or datetime.max`
(`none` behaves as the maximum possible date): `dueKeyLeB x y` means the
key of `x` is at most the key of `y`. -/
def dueKeyLeB : Option Int → Option Int → Bool
  | _, none => true
  | none, some _ => false
  | some x, some y => decide (x ≤ y)

/-- `taskLe a b` holds when `a` may appear no later than `b` in the output
of `list_tasks`, i.e. the sort key of `b` is lexicographically at most the
sort key of `a` (the sort is descending, `reverse=True`). -/
def taskLe (a b : Task) : Prop :=
  rankOf b.priority < rankOf a.priority ∨
    (rankOf a.priority = rankOf b.priority ∧ dueKeyLeB b.due_date a.due_date = true)

instance : DecidableRel taskLe := fun a b => by
  unfold taskLe; infer_instance

/-- The filtering phase of `list_tasks` (each filter is exact equality;
`assignee` and `project_id` are guarded by string truthiness, the enum
filters by enum truthiness which is always true). -/
def filtered_tasks (st : Store) (status : Option TaskStatus)
    (priority : Option Priority) (category : Option TaskCategory)
    (assignee project_id : Option String) : List Task :=
  let ts := st.tasks.map (·.2)
  let ts := match status with
    | some s => ts.filter (fun t => decide (t.status = s))
    | none => ts
  let ts := match priority with
    | some p => ts.filter (fun t => decide (t.priority = p))
    | none => ts
  let ts := match category with
    | some c => ts.filter (fun t => decide (t.category = c))
    | none => ts
  let ts := if truthyS assignee then
      ts.filter (fun t => decide (t.assignee = assignee)) else ts
  let ts := if truthyS project_id then
      ts.filter (fun t => decide (t.project_id = project_id)) else ts
  ts

/-- The sorting phase of `list_tasks`: Python `list.sort` is a stable sort,
and a stable sort under the total preorder `taskLe` is exactly stable
insertion sort. -/
def sorted_tasks (st : Store) (status : Option TaskStatus)
    (priority : Option Priority) (category : Option TaskCategory)
    (assignee project_id : Option String) : List Task :=
  List.insertionSort taskLe (filtered_tasks st status priority category assignee project_id)

/-- Python slice `l[:n]`: first `n` for non-negative `n`, all but the last
`|n|` for negative `n`. -/
def pyTake (n : Int) (l : List α) : List α :=
  if 0 ≤ n then l.take n.toNat else l.take (l.length - n.natAbs)

/-- `list_tasks`: filter, sort by descending (priority rank, due date with
`None` as `datetime.max`), then slice `tasks[:limit]`. -/
def list_tasks (st : Store) (status : Option TaskStatus)
    (priority : Option Priority) (category : Option TaskCategory)
    (assignee project_id : Option String) (limit : Int) : List Task :=
  pyTake limit (sorted_tasks st status priority category assignee project_id)

/-- `start_timer`: requires the task to exist; if some entry for the task is
still open, reports its start time and changes nothing; otherwise inserts a
fresh open entry with `start_time = now`. -/
def start_timer (st : Store) (task_id : String) (description : Option String)
    (entry_id : String) (now : Int) : StartResult × Store :=
  match lookupL task_id st.tasks with
  | none => (.notFound, st)
  | some _ =>
    match st.time_entries.find? (fun p => openFor task_id p.2) with
    | some p => (.alreadyRunning p.2.start_time, st)
    | none =>
      let e : TimeEntry :=
        { id := entry_id, task_id := task_id, start_time := now,
          end_time := none, description := description, duration_minutes := none }
      (.started entry_id now, { st with time_entries := putL entry_id e st.time_entries })

/-- Shared tail of `stop_timer` once the targeted entry pair is resolved:
already-closed entries report so (after a task-title lookup that would raise
`KeyError` on a missing task); otherwise the entry is closed at `now`,
`duration_minutes = int(total_seconds()/60)` (truncation toward zero), and
the owning task's `actual_hours` is increased by the elapsed seconds over
3600 (`if task.actual_hours:` truthiness, so a `None` or `0.0` prior value
is replaced by the increment itself). -/
def stopEntry (st : Store) (p : String × TimeEntry) (now : Int) : StopResult × Store :=
  let e := p.2
  if e.end_time.isSome then
    match lookupL e.task_id st.tasks with
    | none => (.taskKeyError, st)
    | some _ => (.alreadyStopped, st)
  else
    let secs : Int := now - e.start_time
    let mins : Int := Int.tdiv secs 60
    let e' : TimeEntry := { e with end_time := some now, duration_minutes := some mins }
    let entries' := putL p.1 e' st.time_entries
    match lookupL e.task_id st.tasks with
    | none => (.taskKeyError, { st with time_entries := entries' })
    | some t =>
      let newH : ℚ :=
        if truthyQ t.actual_hours then t.actual_hours.getD 0 + (secs : ℚ) / 3600
        else (secs : ℚ) / 3600
      let t' : Task := { t with actual_hours := some newH }
      (.stopped mins newH,
        { st with time_entries := entries', tasks := putL e.task_id t' st.tasks })

/-- `stop_timer`: resolves the selector (`time_entry_id` wins when truthy,
then `task_id` is resolved to the task's open entry, else an error asks for
a selector) and closes the entry via `stopEntry`. -/
def stop_timer (st : Store) (time_entry_id task_id : Option String) (now : Int) :
    StopResult × Store :=
  if truthyS time_entry_id then
    match st.time_entries.find? (fun p => p.1 == time_entry_id.getD "") with
    | none => (.entryNotFound, st)
    | some p => stopEntry st p now
  else if truthyS task_id then
    match st.time_entries.find? (fun p => openFor (task_id.getD "") p.2) with
    | none => (.noActiveTimer, st)
    | some p => stopEntry st p now
  else (.noSelector, st)

/-- `log_time`: requires the task to exist; a malformed `start_time` string
aborts; otherwise a CLOSED entry is inserted with
`end_time = start + duration_minutes` and `duration_minutes` stored
verbatim (any integer, no sign or range check), and the task's
`actual_hours` is increased by `duration_minutes / 60` (same truthiness
pattern as in `stopEntry`). -/
def log_time (st : Store) (task_id : String) (duration_minutes : Int)
    (description : Option String) (start_time : Option (Option Int))
    (entry_id : String) (now : Int) : LogResult × Store :=
  match lookupL task_id st.tasks with
  | none => (.notFound, st)
  | some task =>
    match start_time with
    | some none => (.invalidDate, st)
    | stArg =>
      let ps : Int := match stArg with | some (some s) => s | _ => now
      let e : TimeEntry :=
        { id := entry_id, task_id := task_id, start_time := ps,
          end_time := some (ps + 60 * duration_minutes),
          description := description, duration_minutes := some duration_minutes }
      let newH : ℚ :=
        if truthyQ task.actual_hours then
          task.actual_hours.getD 0 + (duration_minutes : ℚ) / 60
        else (duration_minutes : ℚ) / 60
      let task' : Task := { task with actual_hours := some newH }
      (.logged duration_minutes newH,
        { st with time_entries := putL entry_id e st.time_entries,
                  tasks := putL task_id task' st.tasks })

/-- The productivity-ratio computation of `get_time_analytics`:
`expected_hours = work_hours_per_day * days` and
`(total_hours / expected_hours) * 100 if expected_hours > 0 else 0`. -/
def productivity_ratio (total_minutes days work_hours_per_day : ℚ) : ℚ :=
  let total_hours := total_minutes / 60
  let expected_hours := work_hours_per_day * days
  if 0 < expected_hours then total_hours / expected_hours * 100 else 0

/-! A small operation language over the store, used to state Invariant I1
over arbitrary sequential executions.  Fresh ids and clock readings are
carried as operation arguments. -/

inductive Op where
  | create (cfg : Config) (id title : String) (description : Option String)
      (priority : Option Priority) (category : Option TaskCategory)
      (due_date : Option (Option Int)) (estimated_hours : Option ℚ)
      (tags : Option (List String)) (project_id assignee : Option String) (now : Int)
  | update (task_id : String) (title description : Option String)
      (priority : Option Priority) (status : Option TaskStatus)
      (category : Option TaskCategory) (due_date : Option (Option Int))
      (estimated_hours actual_hours : Option ℚ) (tags : Option (List String))
      (assignee : Option String) (now : Int)
  | delete (task_id : String)
  | start (task_id : String) (description : Option String) (entry_id : String) (now : Int)
  | stop (time_entry_id task_id : Option String) (now : Int)
  | log (task_id : String) (duration_minutes : Int) (description : Option String)
      (start_time : Option (Option Int)) (entry_id : String) (now : Int)

/-- State effect of one operation (the reported result is dropped). -/
def applyOp (st : Store) : Op → Store
  | .create cfg i ti d p c dd eh tg pj asg now =>
      (create_task st cfg i ti d p c dd eh tg pj asg now).2
  | .update tid ti d p s c dd eh ah tg asg now =>
      (update_task st tid ti d p s c dd eh ah tg asg now).2
  | .delete tid => (delete_task st tid).2
  | .start tid d eid now => (start_timer st tid d eid now).2
  | .stop teid tid now => (stop_timer st teid tid now).2
  | .log tid dm d s eid now => (log_time st tid dm d s eid now).2

/-- Sequential execution of a list of operations. -/
def runOps (st : Store) (ops : List Op) : Store :=
  ops.foldl applyOp st

/-! Helper lemmas. -/

/-- The `if task.actual_hours:` accumulation pattern of `stop_timer` and
`log_time` always amounts to adding the increment to the prior value (with
`None` read as `0`): the only falsy rational is `0` itself. -/
theorem accumulate_eq (h : Option ℚ) (d : ℚ) :
    (if truthyQ h then h.getD 0 + d else d) = h.getD 0 + d := by
  cases h with
  | none => simp [truthyQ]
  | some q =>
    by_cases hq : q = 0 <;> simp [truthyQ, hq]

theorem countP_putL_le (k : String) (v : α) (q : String × α → Bool)
    (hv : q (k, v) = false) :
    ∀ l : List (String × α), (putL k v l).countP q ≤ l.countP q := by
  intro l
  induction l with
  | nil => simp [putL, List.countP_cons, hv]
  | cons p ps ih =>
    by_cases hp : (p.1 == k) = true
    · simp [putL, hp, List.countP_cons, hv]
    · simp [putL, hp, List.countP_cons]
      have := ih
      omega

theorem countP_putL_of_zero (k : String) (v : α) (q : String × α → Bool) :
    ∀ l : List (String × α), l.countP q = 0 → (putL k v l).countP q ≤ 1 := by
  intro l
  induction l with
  | nil =>
    intro _
    simp only [putL, List.countP_cons, List.countP_nil]
    split <;> simp
  | cons p ps ih =>
    intro h0
    rw [List.countP_cons] at h0
    have hps : ps.countP q = 0 := by omega
    have hp0 : ¬ (q p = true) := by
      intro hq
      simp [hq] at h0
    by_cases hp : (p.1 == k) = true
    · simp only [putL, hp, if_true, List.countP_cons, hps]
      split <;> simp
    · simp only [putL, hp, if_false, Bool.false_eq_true, List.countP_cons, hp0]
      simpa using ih hps

theorem countP_filter_le (q f : α → Bool) (l : List α) :
    (l.filter f).countP q ≤ l.countP q :=
  (l.filter_sublist).countP_le q

theorem countP_zero_of_find?_none (q : α → Bool) (l : List α)
    (h : l.find? q = none) : l.countP q = 0 := by
  rw [List.countP_eq_zero]
  intro a ha
  exact List.find?_eq_none.mp h a ha

theorem lookupL_putL_self (k : String) (v : α) :
    ∀ l : List (String × α), lookupL k (putL k v l) = some v := by
  intro l
  induction l with
  | nil => simp [putL, lookupL, List.find?]
  | cons p ps ih =>
    by_cases hp : (p.1 == k) = true
    · simp [putL, hp, lookupL, List.find?]
    · simp only [putL, hp, if_false, Bool.false_eq_true]
      simpa [lookupL, List.find?, hp] using ih

theorem lookupL_eraseL_self (k : String) (l : List (String × α)) :
    lookupL k (eraseL k l) = none := by
  have : (eraseL k l).find? (fun p => p.1 == k) = none := by
    rw [List.find?_eq_none]
    intro x hx
    have hmem := List.mem_filter.mp hx
    simp only [Bool.not_eq_eq_eq_not, Bool.not_true] at hmem
    simp [hmem.2]
  simp [lookupL, this]

/-- With unique keys, two stored pairs sharing a key are the same pair. -/
theorem key_inj {l : List (String × α)} (hnd : (l.map Prod.fst).Nodup)
    {p q : String × α} (hp : p ∈ l) (hq : q ∈ l) (hk : p.1 = q.1) : p = q :=
  List.inj_on_of_nodup_map hnd hp hq hk

/-- With unique keys, filtering out a stored pair makes its key unresolvable. -/
theorem lookupL_filter_none {l : List (String × α)}
    (hnd : (l.map Prod.fst).Nodup) {k : String} {e : α} (hmem : (k, e) ∈ l)
    {f : String × α → Bool} (hf : f (k, e) = false) :
    lookupL k (l.filter f) = none := by
  have : (l.filter f).find? (fun p => p.1 == k) = none := by
    rw [List.find?_eq_none]
    intro x hx
    have hmf := List.mem_filter.mp hx
    intro hxk
    have hxk' : x.1 = k := by simpa using hxk
    have : x = (k, e) := key_inj hnd hmf.1 hmem hxk'
    rw [this, hf] at hmf
    exact absurd hmf.2 (by simp)
  simp [lookupL, this]

/-- With unique keys, a stored pair that survives a filter is still found. -/
theorem lookupL_filter_mem {l : List (String × α)}
    (hnd : (l.map Prod.fst).Nodup) {k : String} {e : α} (hmem : (k, e) ∈ l)
    {f : String × α → Bool} (hf : f (k, e) = true) :
    lookupL k (l.filter f) = some e := by
  induction l with
  | nil => simp at hmem
  | cons p ps ih =>
    have hnd' : (ps.map Prod.fst).Nodup := by
      simpa using (List.nodup_cons.mp (by simpa using hnd)).2
    by_cases hpk : p.1 = k
    · have hpe : p = (k, e) := by
        rcases List.mem_cons.mp hmem with h | h
        · exact h.symm
        · exact key_inj hnd (by simp) (by simp [h]) (by simpa using hpk)
      subst hpe
      simp [List.filter_cons, hf, lookupL, List.find?]
    · have hmem' : (k, e) ∈ ps := by
        rcases List.mem_cons.mp hmem with h | h
        · exact absurd (congrArg Prod.fst h.symm) hpk
        · exact h
      have hrec := ih hnd' hmem'
      by_cases hfp : f p = true
      · have hpkb : (p.1 == k) = false := by simpa using hpk
        simpa [List.filter_cons, hfp, lookupL, List.find?, hpkb] using hrec
      · simp only [List.filter_cons, hfp, if_neg, Bool.false_eq_true, if_false]
        exact hrec

/-- `lookupL` over `eraseL` of a different key is unchanged. -/
theorem lookupL_eraseL_ne {k k' : String} (hk : k ≠ k') (l : List (String × α)) :
    lookupL k (eraseL k' l) = lookupL k l := by
  induction l with
  | nil => simp [eraseL, lookupL]
  | cons p ps ih =>
    by_cases hp : p.1 = k'
    · have hpk : (p.1 == k) = false := by simp [hp]; exact fun h => hk h.symm
      have hpe : (p.1 == k') = true := by simpa using hp
      simpa [eraseL, List.filter_cons, hpe, lookupL, List.find?, hpk] using ih
    · have hpe : (p.1 == k') = false := by simpa using hp
      by_cases hpk : (p.1 == k) = true
      · simp [eraseL, List.filter_cons, hpe, lookupL, List.find?, hpk]
      · simpa [eraseL, List.filter_cons, hpe, lookupL, List.find?, hpk] using ih

/-! Order facts for the `list_tasks` sort relation. -/

theorem dueKeyLeB_total (x y : Option Int) :
    dueKeyLeB x y = true ∨ dueKeyLeB y x = true := by
  cases x <;> cases y <;> first
  | (simp [dueKeyLeB]; omega)
  | simp [dueKeyLeB]

theorem dueKeyLeB_trans {x y z : Option Int} (h1 : dueKeyLeB x y = true)
    (h2 : dueKeyLeB y z = true) : dueKeyLeB x z = true := by
  cases x <;> cases y <;> cases z <;> first
  | (simp_all [dueKeyLeB]; omega)
  | simp_all [dueKeyLeB]

instance : IsTotal Task taskLe := by
  constructor
  intro a b
  rcases Nat.lt_trichotomy (rankOf a.priority) (rankOf b.priority) with h | h | h
  · exact Or.inr (Or.inl h)
  · rcases dueKeyLeB_total a.due_date b.due_date with hd | hd
    · exact Or.inr (Or.inr ⟨h.symm, hd⟩)
    · exact Or.inl (Or.inr ⟨h, hd⟩)
  · exact Or.inl (Or.inl h)

instance : IsTrans Task taskLe := by
  constructor
  intro a b c hab hbc
  rcases hab with h1 | ⟨h1, d1⟩
  · rcases hbc with h2 | ⟨h2, _⟩
    · exact Or.inl (h2.trans h1)
    · exact Or.inl (h2 ▸ h1)
  · rcases hbc with h2 | ⟨h2, d2⟩
    · exact Or.inl (h1 ▸ h2)
    · exact Or.inr ⟨h1.trans h2, dueKeyLeB_trans d2 d1⟩

/-- The truncated slice of `list_tasks` is a sublist of the sorted list. -/
theorem pyTake_sublist (n : Int) (l : List α) : (pyTake n l).Sublist l := by
  unfold pyTake
  split <;> exact List.take_sublist _ _

/-! Preservation of Invariant I1 (at most one open entry per task) by each
operation. -/

theorem create_task_entries (st : Store) (cfg : Config) (i ti : String)
    (d : Option String) (p : Option Priority) (c : Option TaskCategory)
    (dd : Option (Option Int)) (eh : Option ℚ) (tg : Option (List String))
    (pj asg : Option String) (now : Int) :
    (create_task st cfg i ti d p c dd eh tg pj asg now).2.time_entries = st.time_entries := by
  unfold create_task
  split <;> rfl

theorem update_task_entries (st : Store) (tid : String) (ti d : Option String)
    (p : Option Priority) (s : Option TaskStatus) (c : Option TaskCategory)
    (dd : Option (Option Int)) (eh ah : Option ℚ) (tg : Option (List String))
    (asg : Option String) (now : Int) :
    (update_task st tid ti d p s c dd eh ah tg asg now).2.time_entries = st.time_entries := by
  unfold update_task
  split
  · rfl
  · split <;> rfl

theorem openCount_delete_task (st : Store) (tid k : String) :
    openCount k (delete_task st tid).2.time_entries ≤ openCount k st.time_entries := by
  unfold delete_task
  split
  · exact Nat.le_refl _
  · exact countP_filter_le _ _ _

theorem openCount_start_timer (st : Store) (task_id : String) (d : Option String)
    (eid : String) (now : Int) (k : String)
    (h : openCount k st.time_entries ≤ 1) :
    openCount k (start_timer st task_id d eid now).2.time_entries ≤ 1 := by
  unfold start_timer
  cases hl : lookupL task_id st.tasks with
  | none => simpa using h
  | some t =>
    cases hf : st.time_entries.find? (fun p => openFor task_id p.2) with
    | some p => simpa using h
    | none =>
      show openCount k (putL eid _ st.time_entries) ≤ 1
      by_cases hk : k = task_id
      · subst hk
        exact countP_putL_of_zero _ _ _ _ (countP_zero_of_find?_none _ _ hf)
      · refine le_trans (countP_putL_le _ _ _ ?_ _) h
        simp [openFor]
        intro habs
        exact absurd habs.symm hk

theorem openCount_stopEntry (st : Store) (p : String × TimeEntry) (now : Int)
    (k : String) (h : openCount k st.time_entries ≤ 1) :
    openCount k (stopEntry st p now).2.time_entries ≤ 1 := by
  unfold stopEntry
  have hput : ∀ e' : TimeEntry, e'.end_time.isNone = false →
      openCount k (putL p.1 e' st.time_entries) ≤ 1 := by
    intro e' he'
    refine le_trans (countP_putL_le _ _ _ ?_ _) h
    simp [openFor, he']
  dsimp only
  cases he : p.2.end_time with
  | some v =>
    simp only [he, Option.isSome_some, if_true]
    split <;> simpa using h
  | none =>
    simp only [he, Option.isSome_none, Bool.false_eq_true, if_false]
    split
    · exact hput _ (by simp)
    · exact hput _ (by simp)

theorem openCount_stop_timer (st : Store) (teid tid : Option String) (now : Int)
    (k : String) (h : openCount k st.time_entries ≤ 1) :
    openCount k (stop_timer st teid tid now).2.time_entries ≤ 1 := by
  unfold stop_timer
  split
  · split
    · simpa using h
    · exact openCount_stopEntry _ _ _ _ h
  · split
    · split
      · simpa using h
      · exact openCount_stopEntry _ _ _ _ h
    · simpa using h

theorem openCount_log_time (st : Store) (tid : String) (dm : Int)
    (d : Option String) (s : Option (Option Int)) (eid : String) (now : Int)
    (k : String) (h : openCount k st.time_entries ≤ 1) :
    openCount k (log_time st tid dm d s eid now).2.time_entries ≤ 1 := by
  unfold log_time
  split
  · simpa using h
  · split
    · simpa using h
    · show openCount k (putL eid _ st.time_entries) ≤ 1
      refine le_trans (countP_putL_le _ _ _ ?_ _) h
      simp [openFor]

theorem openCount_applyOp (st : Store) (o : Op) (k : String)
    (h : openCount k st.time_entries ≤ 1) :
    openCount k (applyOp st o).time_entries ≤ 1 := by
  cases o with
  | create cfg i ti d p c dd eh tg pj asg now =>
    show openCount k (create_task st cfg i ti d p c dd eh tg pj asg now).2.time_entries ≤ 1
    rw [create_task_entries]
    exact h
  | update tid ti d p s c dd eh ah tg asg now =>
    show openCount k (update_task st tid ti d p s c dd eh ah tg asg now).2.time_entries ≤ 1
    rw [update_task_entries]
    exact h
  | delete tid => exact le_trans (openCount_delete_task st tid k) h
  | start tid d eid now => exact openCount_start_timer st tid d eid now k h
  | stop teid tid now => exact openCount_stop_timer st teid tid now k h
  | log tid dm d s eid now => exact openCount_log_time st tid dm d s eid now k h

theorem openCount_runOps (ops : List Op) (k : String) :
    ∀ st : Store, openCount k st.time_entries ≤ 1 →
      openCount k (runOps st ops).time_entries ≤ 1 := by
  induction ops with
  | nil => intro st h; exact h
  | cons o os ih =>
    intro st h
    exact ih (applyOp st o) (openCount_applyOp st o k h)

/-! Concrete fixtures for witnesses and counterexamples. -/

def cfgW : Config := ⟨.medium, .other, 8⟩

/-- A task with the given id, title, priority, due date and actual hours and
source defaults elsewhere. -/
def baseTask (id title : String) (prio : Priority) (due : Option Int)
    (ah : Option ℚ) : Task :=
  { id := id, title := title, description := none, priority := prio,
    status := .todo, category := .other, due_date := due, created_at := 0,
    updated_at := 0, estimated_hours := none, actual_hours := ah, tags := [],
    dependencies := [], assignee := none, project_id := none }

def baseEntry (id tid : String) (s : Int) (e dm : Option Int) : TimeEntry :=
  ⟨id, tid, s, e, none, dm⟩

def taskC1 : Task := baseTask "t1" "Write spec" .high none none
def entryC1 : TimeEntry := baseEntry "e1" "t1" 10 none none
def storeC1 : Store := ⟨[("t1", taskC1)], [], [("e1", entryC1)]⟩
def opsC1 : List Op :=
  [Op.create cfgW "t1" "Write spec" none (some .high) none none none none none none 0,
   Op.start "t1" none "e1" 10,
   Op.start "t1" none "e2" 20]

def taskC2 : Task := baseTask "t1" "Write spec" .high none (some (3 / 2))
def entryC2 : TimeEntry := baseEntry "e2" "t1" 0 none none
def storeC2 : Store := ⟨[("t1", taskC2)], [], [("e2", entryC2)]⟩

def taskC3a : Task := baseTask "t1" "Alpha" .medium none none
def taskC3b : Task := baseTask "t2" "Beta" .medium none none
def entryC3a : TimeEntry := baseEntry "e1" "t1" 0 (some 60) (some 1)
def entryC3b : TimeEntry := baseEntry "e2" "t1" 100 (some 160) (some 1)
def entryC3c : TimeEntry := baseEntry "e3" "t2" 0 (some 60) (some 1)
def projC3 : Project := ⟨"p1", "Proj", none, none, none, "active", [], none, 0⟩
def storeC3 : Store :=
  ⟨[("t1", taskC3a), ("t2", taskC3b)], [("p1", projC3)],
   [("e1", entryC3a), ("e2", entryC3b), ("e3", entryC3c)]⟩

def taskC4a : Task := baseTask "a" "A" .medium (some 100) none
def taskC4b : Task := baseTask "b" "B" .medium (some 200) none
def taskC4c : Task := baseTask "c" "C" .medium none none
def taskC4h : Task := baseTask "h" "H" .high none none
def storeC4 : Store := ⟨[("a", taskC4a), ("b", taskC4b), ("c", taskC4c)], [], []⟩

def taskC5 : Task := baseTask "t1" "Write spec" .high none none
def storeC5 : Store := ⟨[("t1", taskC5)], [], []⟩

def taskC7 : Task := baseTask "t1" "Old" .medium none none
def storeC7 : Store := ⟨[("t1", taskC7)], [], []⟩

def storeC8 : Store := ⟨[("a", baseTask "a" "A" .medium none none),
                        ("b", baseTask "b" "B" .medium none none)], [], []⟩

def taskC9 : Task := baseTask "t1" "T" .low none none
def storeC9 : Store := ⟨[("t1", taskC9)], [], []⟩

def taskC10 : Task := baseTask "t1" "T" .low none none
def entryC10 : TimeEntry := baseEntry "e1" "t1" 0 none none
def storeC10 : Store := ⟨[("t1", taskC10)], [], [("e1", entryC10)]⟩

/-! Claim theorems. -/

/-- Claim C1: after any sequence of create_task / update_task / delete_task /
start_timer / stop_timer / log_time operations run sequentially from the
empty module state, every task has at most one TimeEntry with `end_time`
unset; and `start_timer` on a task that already has an open entry creates no
new entry (the store is returned unchanged) and reports the open entry's
start time. -/
theorem c1_at_most_one_open_timer (ops : List Op) (tid : String)
    (st : Store) (t : Task) (p : String × TimeEntry) (d : Option String)
    (eid : String) (now : Int)
    (htask : lookupL tid st.tasks = some t)
    (hopen : st.time_entries.find? (fun q => openFor tid q.2) = some p) :
    openCount tid (runOps emptyStore ops).time_entries ≤ 1 ∧
    start_timer st tid d eid now = (.alreadyRunning p.2.start_time, st) := by
  constructor
  · exact openCount_runOps ops tid emptyStore (by simp [emptyStore, openCount])
  · simp only [start_timer, htask, hopen]

/-- Witness for C1: a create/start/start history keeps at most one open entry
for task `t1`, and a second `start_timer` against a store whose task `t1`
already has the open entry `e1` (started at 10) reports 10 and leaves the
store untouched. -/
theorem c1_witness :
    openCount "t1" (runOps emptyStore opsC1).time_entries ≤ 1 ∧
    start_timer storeC1 "t1" none "e2" 50 = (.alreadyRunning 10, storeC1) :=
  c1_at_most_one_open_timer opsC1 "t1" storeC1 taskC1 ("e1", entryC1) none "e2" 50
    (by decide) (by decide)

/-- Claim C2: `stop_timer` on an existing open entry sets `end_time = now`,
sets `duration_minutes` to the elapsed whole minutes
(`int(total_seconds()/60)`, equal to the floor `Int.fdiv` because the
elapsed time is non-negative), and adds the elapsed hours to the task's
prior `actual_hours` (`none` read as 0) — never overwriting it. -/
theorem c2_stop_timer_accumulates (st : Store) (eid : String) (e : TimeEntry)
    (t : Task) (tidArg : Option String) (now : Int)
    (heid : eid ≠ "")
    (hfind : st.time_entries.find? (fun p => p.1 == eid) = some (eid, e))
    (hopen : e.end_time = none)
    (htask : lookupL e.task_id st.tasks = some t)
    (hnow : e.start_time ≤ now) :
    stop_timer st (some eid) tidArg now =
      (StopResult.stopped (Int.tdiv (now - e.start_time) 60)
          (t.actual_hours.getD 0 + ((now - e.start_time : Int) : ℚ) / 3600),
        { st with
          time_entries := putL eid
            { e with end_time := some now,
                     duration_minutes := some (Int.tdiv (now - e.start_time) 60) }
            st.time_entries,
          tasks := putL e.task_id
            { t with
              actual_hours :=
                some (t.actual_hours.getD 0 + ((now - e.start_time : Int) : ℚ) / 3600) }
            st.tasks }) ∧
    Int.tdiv (now - e.start_time) 60 = Int.fdiv (now - e.start_time) 60 := by
  have hsecs : (0 : Int) ≤ now - e.start_time := by omega
  constructor
  · have htr : truthyS (some eid) = true := by simp [truthyS, heid]
    simp only [stop_timer, htr, if_true, Option.getD_some, hfind, stopEntry, hopen,
      Option.isSome_none, Bool.false_eq_true, if_false, htask, accumulate_eq]
  · rw [Int.tdiv_eq_ediv hsecs (by omega), Int.fdiv_eq_ediv _ (by omega)]

/-- Witness for C2, continuing the spec scenario: the task already carries
1.5 actual hours from a 90-minute session; stopping a 30-minute open timer
reports 30 minutes and leaves 2.0 total hours (additive, not overwritten). -/
theorem c2_witness :
    (stop_timer storeC2 (some "e2") none 1800).1 = StopResult.stopped 30 2 ∧
    (lookupL "t1" (stop_timer storeC2 (some "e2") none 1800).2.tasks).map
      Task.actual_hours = some (some 2) := by
  have h := c2_stop_timer_accumulates storeC2 "e2" entryC2 taskC2 none 1800
    (by decide) rfl rfl rfl (by decide)
  rw [h.1]
  have h30 : Int.tdiv (1800 - entryC2.start_time) 60 = 30 := by decide
  have h2 : taskC2.actual_hours.getD 0 +
      ((1800 - entryC2.start_time : Int) : ℚ) / 3600 = 2 := by
    norm_num [taskC2, baseTask, entryC2, baseEntry]
  rw [h30, h2]
  refine ⟨rfl, ?_⟩
  norm_num [storeC2, taskC2, entryC2, baseEntry, putL, lookupL, List.find?]

/-- Claim C5: `log_time` on an existing task builds a closed entry with
`end_time = start_time + duration_minutes`, stores `duration_minutes`
verbatim, and adds `duration_minutes / 60` hours to the task's prior
`actual_hours` (`none` read as 0).  No hypothesis mentions the open entries
of the task: the result is the same whether or not a timer is running. -/
theorem c5_log_time (st : Store) (tid : String) (t : Task) (dm : Int)
    (d : Option String) (s : Int) (eid : String) (now : Int)
    (htask : lookupL tid st.tasks = some t) :
    log_time st tid dm d (some (some s)) eid now =
      (LogResult.logged dm (t.actual_hours.getD 0 + (dm : ℚ) / 60),
        { st with
          time_entries := putL eid
            { id := eid, task_id := tid, start_time := s,
              end_time := some (s + 60 * dm), description := d,
              duration_minutes := some dm } st.time_entries,
          tasks := putL tid
            { t with actual_hours := some (t.actual_hours.getD 0 + (dm : ℚ) / 60) }
            st.tasks }) := by
  simp only [log_time, htask, accumulate_eq]

/-- Witness for C5, the spec scenario: logging 45 minutes starting at
2024-01-01T09:00:00Z (epoch 1704099600) on a task with no prior time yields
`end_time` = 09:45 (epoch 1704102300), `duration_minutes` = 45, and
`actual_hours` = 0.75. -/
theorem c5_witness :
    (log_time storeC5 "t1" 45 none (some (some 1704099600)) "e1" 0).1 =
      LogResult.logged 45 (3 / 4) ∧
    lookupL "e1" (log_time storeC5 "t1" 45 none (some (some 1704099600))
        "e1" 0).2.time_entries =
      some ⟨"e1", "t1", 1704099600, some 1704102300, none, some 45⟩ ∧
    (lookupL "t1" (log_time storeC5 "t1" 45 none (some (some 1704099600))
        "e1" 0).2.tasks).map Task.actual_hours = some (some (3 / 4)) := by
  rw [c5_log_time storeC5 "t1" taskC5 45 none 1704099600 "e1" 0 rfl]
  have h34 : taskC5.actual_hours.getD 0 + ((45 : Int) : ℚ) / 60 = 3 / 4 := by
    norm_num [taskC5, baseTask]
  rw [h34]
  refine ⟨rfl, ?_, ?_⟩ <;>
    norm_num [storeC5, taskC5, baseTask, putL, lookupL, List.find?]

/-- Claim C6: whenever `days` and `work_hours_per_day` are positive, the
productivity ratio of `get_time_analytics` equals
`(total_minutes/60) / (work_hours_per_day * days) * 100`. -/
theorem c6_productivity_ratio (total_minutes days work_hours_per_day : ℚ)
    (hd : 0 < days) (hw : 0 < work_hours_per_day) :
    productivity_ratio total_minutes days work_hours_per_day =
      total_minutes / 60 / (work_hours_per_day * days) * 100 := by
  unfold productivity_ratio
  rw [if_pos (mul_pos hw hd)]

/-- Witness for C6: `productivityRatio(480, 7, 8) = (8/56)*100 = 100/7`
(about 14.3%). -/
theorem c6_witness :
    productivity_ratio 480 7 8 = 480 / 60 / (8 * 7) * 100 ∧
    productivity_ratio 480 7 8 = 100 / 7 := by
  have h := c6_productivity_ratio 480 7 8 (by norm_num) (by norm_num)
  exact ⟨h, by rw [h]; norm_num⟩

/-- Claim C3: `delete_task` on an existing task removes the task and exactly
the N time entries whose `task_id` matches (and no others), reports N, makes
every removed id unresolvable, preserves every entry of other tasks, and
leaves the project storage untouched.  The unique-key hypothesis is the dict
invariant of the Python storage. -/
theorem c3_delete_task_cascades (st : Store) (tid : String) (t : Task)
    (htask : lookupL tid st.tasks = some t)
    (hnd : (st.time_entries.map Prod.fst).Nodup) :
    (delete_task st tid).1 =
      DeleteResult.deleted t.title
        (st.time_entries.filter (fun p => p.2.task_id == tid)).length ∧
    (delete_task st tid).2.time_entries =
      st.time_entries.filter (fun p => !(p.2.task_id == tid)) ∧
    lookupL tid (delete_task st tid).2.tasks = none ∧
    (∀ k e, (k, e) ∈ st.time_entries → e.task_id = tid →
      lookupL k (delete_task st tid).2.time_entries = none) ∧
    (∀ k e, (k, e) ∈ st.time_entries → e.task_id ≠ tid →
      lookupL k (delete_task st tid).2.time_entries = some e) ∧
    (delete_task st tid).2.projects = st.projects := by
  simp only [delete_task, htask]
  refine ⟨trivial, trivial, lookupL_eraseL_self tid st.tasks, ?_, ?_, trivial⟩
  · intro k e hmem he
    exact lookupL_filter_none hnd hmem (by simp [he])
  · intro k e hmem he
    exact lookupL_filter_mem hnd hmem (by simpa using he)

/-- Witness for C3: deleting task `t1` (two associated entries, task `t2`
keeps its entry `e3`, one project present) reports 2 removed entries, makes
`t1`, `e1`, `e2` unresolvable and leaves `e3` and the project storage
intact. -/
theorem c3_witness :
    (delete_task storeC3 "t1").1 = DeleteResult.deleted "Alpha" 2 ∧
    lookupL "t1" (delete_task storeC3 "t1").2.tasks = none ∧
    lookupL "e1" (delete_task storeC3 "t1").2.time_entries = none ∧
    lookupL "e2" (delete_task storeC3 "t1").2.time_entries = none ∧
    lookupL "e3" (delete_task storeC3 "t1").2.time_entries = some entryC3c ∧
    (delete_task storeC3 "t1").2.projects = storeC3.projects := by
  have h := c3_delete_task_cascades storeC3 "t1" taskC3a rfl (by decide)
  refine ⟨?_, h.2.2.1, ?_, ?_, ?_, h.2.2.2.2.2⟩
  · rw [h.1]; decide
  · exact h.2.2.2.1 "e1" entryC3a (by decide) rfl
  · exact h.2.2.2.1 "e2" entryC3b (by decide) rfl
  · exact h.2.2.2.2.1 "e3" entryC3c (by decide) (by decide)

/-- Claim C4 fails on the code: `list_tasks` sorts with `reverse=True` on the
key `(priority rank, due_date or datetime.max)`, so among equal-priority
tasks a LATER due date sorts first and a task with NO due date sorts first
(top of its tier), not last.  Concretely, for three medium-priority tasks A
(due 100), B (due 200), C (no due date) inserted as A, B, C, the output is
[C, B, A], while the claim requires A before B and C after both. -/
theorem c4_counterexample :
    list_tasks storeC4 none none none none none 20 = [taskC4c, taskC4b, taskC4a] := by
  decide

/-- Claim C4 (amended): the output of `list_tasks` is sorted by `taskLe`,
the DESCENDING lexicographic order on (priority rank, due date with `none`
as maximum): every earlier output task weakly precedes every later one.
Consequently a task of strictly higher priority rank sorts before a lower
one; among equal priorities a task with a LATER due date sorts before an
earlier one; and a task with no due date sorts before every dated task of
its priority tier (top of the tier, not bottom as the claim states). -/
theorem c4_order_descending (st : Store) (s : Option TaskStatus)
    (p : Option Priority) (c : Option TaskCategory) (a pj : Option String)
    (n : Int) :
    (list_tasks st s p c a pj n).Pairwise taskLe ∧
    (∀ x y : Task, rankOf y.priority < rankOf x.priority → taskLe x y) ∧
    (∀ x y : Task, ∀ dx dy : Int, rankOf x.priority = rankOf y.priority →
      x.due_date = some dx → y.due_date = some dy → dy ≤ dx → taskLe x y) ∧
    (∀ x y : Task, rankOf x.priority = rankOf y.priority → x.due_date = none →
      taskLe x y) := by
  refine ⟨?_, ?_, ?_, ?_⟩
  · exact List.Pairwise.sublist (pyTake_sublist n _)
      (List.sorted_insertionSort taskLe _)
  · intro x y h
    exact Or.inl h
  · intro x y dx dy hr hx hy hd
    refine Or.inr ⟨hr, ?_⟩
    rw [hx, hy]
    simpa [dueKeyLeB] using hd
  · intro x y hr hx
    refine Or.inr ⟨hr, ?_⟩
    rw [hx]
    cases y.due_date <;> simp [dueKeyLeB]

/-- Witness for C4 (amended), at the concrete store of the counterexample:
the output is `taskLe`-sorted, a high-priority task precedes a medium one,
the later-due task B precedes the earlier-due A, and the dateless task C
precedes B. -/
theorem c4_witness :
    (list_tasks storeC4 none none none none none 20).Pairwise taskLe ∧
    taskLe taskC4h taskC4a ∧ taskLe taskC4b taskC4a ∧ taskLe taskC4c taskC4b := by
  have h := c4_order_descending storeC4 none none none none none 20
  exact ⟨h.1, h.2.1 taskC4h taskC4a (by decide),
    h.2.2.1 taskC4b taskC4a 200 100 (by decide) (by decide) (by decide) (by decide),
    h.2.2.2 taskC4c taskC4b (by decide) (by decide)⟩

/-- Claim C7 fails on the code: `update_task` writes title, description,
priority, status and category into the stored task BEFORE parsing
`due_date`, so a call carrying a new title together with a malformed date
string reports the date error yet leaves the title mutated. -/
theorem c7_counterexample :
    (update_task storeC7 "t1" (some "New") none none none none (some none)
        none none none none 99).1 = UpdateResult.invalidDate ∧
    (lookupL "t1" (update_task storeC7 "t1" (some "New") none none none none
        (some none) none none none none 99).2.tasks).map Task.title = some "New" ∧
    (lookupL "t1" storeC7.tasks).map Task.title = some "Old" := by
  decide

/-- Claim C7 (amended): when the supplied `due_date` fails validation,
`update_task` reports the failure, but the fields checked before the date
(title, description, priority, status, category) are already applied to the
stored task, while the fields checked after it (estimated_hours,
actual_hours, tags, assignee) and `updated_at` keep their old values — the
update is partially applied, not atomic. -/
theorem c7_partial_update (st : Store) (tid : String) (t0 : Task)
    (ti d : Option String) (pr : Option Priority) (sa : Option TaskStatus)
    (ca : Option TaskCategory) (eh ah : Option ℚ) (tg : Option (List String))
    (asg : Option String) (now : Int)
    (htask : lookupL tid st.tasks = some t0) :
    update_task st tid ti d pr sa ca (some none) eh ah tg asg now =
      (UpdateResult.invalidDate,
        { st with
          tasks := putL tid
            { t0 with
              title := ti.getD t0.title,
              description := patchOpt d t0.description,
              priority := pr.getD t0.priority,
              status := sa.getD t0.status,
              category := ca.getD t0.category } st.tasks }) := by
  simp only [update_task, htask]

/-- Witness for C7 (amended): the concrete counterexample call produces
exactly the partially-updated task (new title, everything else as before,
`updated_at` untouched). -/
theorem c7_witness :
    update_task storeC7 "t1" (some "New") none none none none (some none)
        none none none none 99 =
      (UpdateResult.invalidDate,
        { storeC7 with
          tasks := putL "t1" { taskC7 with title := "New" } storeC7.tasks }) := by
  rw [c7_partial_update storeC7 "t1" taskC7 (some "New") none none none none
    none none none none 99 rfl]
  decide

/-- Claim C8 fails on the code: `tasks[:limit]` follows Python slice
semantics, so a NEGATIVE limit does not yield an empty result — it drops the
last `|limit|` tasks.  With two stored tasks, `limit = -1` returns one task,
not zero. -/
theorem c8_counterexample :
    (list_tasks storeC8 none none none none none (-1)).length = 1 := by
  decide

/-- Claim C8 (amended): `limit = 0` yields the empty list; a positive limit
truncates to the first `limit` tasks after ordering; a NEGATIVE limit
follows Python slice semantics and keeps all but the last `|limit|` tasks
(empty only when `|limit|` reaches the task count) — it is not treated as
valid-empty. -/
theorem c8_limit_semantics (st : Store) (s : Option TaskStatus)
    (p : Option Priority) (c : Option TaskCategory) (a pj : Option String)
    (n : Int) :
    (n = 0 → list_tasks st s p c a pj n = []) ∧
    (0 < n → list_tasks st s p c a pj n =
      (sorted_tasks st s p c a pj).take n.toNat) ∧
    (n < 0 → list_tasks st s p c a pj n =
      (sorted_tasks st s p c a pj).take
        ((sorted_tasks st s p c a pj).length - n.natAbs)) := by
  refine ⟨?_, ?_, ?_⟩
  · rintro rfl
    simp [list_tasks, pyTake]
  · intro h
    simp [list_tasks, pyTake, le_of_lt h]
  · intro h
    simp [list_tasks, pyTake, not_le.mpr h]

/-- Witness for C8 (amended): on the two-task store, limit 0 gives the empty
list and limit -1 gives all but the last task. -/
theorem c8_witness :
    list_tasks storeC8 none none none none none 0 = [] ∧
    list_tasks storeC8 none none none none none (-1) =
      (sorted_tasks storeC8 none none none none none).take
        ((sorted_tasks storeC8 none none none none none).length - 1) :=
  ⟨(c8_limit_semantics storeC8 none none none none none 0).1 rfl,
   (c8_limit_semantics storeC8 none none none none none (-1)).2.2 (by decide)⟩

/-- Claim C9 is right and the code is wrong: the spec's error model requires
a negative duration to be an InvalidArgument failure, but `log_time` never
checks the sign.  At the failing input `log_time(task "t1", -30 minutes)`
the code reports success, inserts a time entry with `duration_minutes = -30`
(and `end_time` BEFORE `start_time`), and DECREASES the task's
`actual_hours` to -0.5 — a silent success with mutation, not a structured
failure. -/
theorem c9_negative_duration_accepted :
    (log_time storeC9 "t1" (-30) none none "e9" 1000).1 =
      LogResult.logged (-30) (-(1 / 2)) ∧
    (lookupL "t1" (log_time storeC9 "t1" (-30) none none "e9" 1000).2.tasks).map
      Task.actual_hours = some (some (-(1 / 2))) ∧
    (lookupL "e9" (log_time storeC9 "t1" (-30) none none "e9"
        1000).2.time_entries).map TimeEntry.duration_minutes = some (some (-30)) ∧
    (lookupL "e9" (log_time storeC9 "t1" (-30) none none "e9"
        1000).2.time_entries).map TimeEntry.end_time = some (some (-800)) := by
  have h : lookupL "t1" storeC9.tasks = some taskC9 := rfl
  simp only [log_time, h]
  norm_num [storeC9, taskC9, baseTask, truthyQ, lookupL, putL, List.find?]

/-- Claim C10 fails on the code: `stop_timer` mutates the stored task's
`actual_hours` (here from `none` to 1.0 after a one-hour session) but never
touches `updated_at`, which keeps its pre-call value 0 instead of
reflecting the mutation at time 3600. -/
theorem c10_counterexample :
    (lookupL "t1" (stop_timer storeC10 (some "e1") none 3600).2.tasks).map
      Task.actual_hours = some (some 1) ∧
    (lookupL "t1" (stop_timer storeC10 (some "e1") none 3600).2.tasks).map
      Task.updated_at = some 0 ∧
    (lookupL "t1" storeC10.tasks).map Task.updated_at = some 0 ∧
    (lookupL "t1" storeC10.tasks).map Task.actual_hours = some none := by
  have htr : truthyS (some "e1") = true := by decide
  have hf : storeC10.time_entries.find? (fun p => p.1 == "e1") =
      some ("e1", entryC10) := rfl
  simp only [stop_timer, htr, if_true, Option.getD_some, hf, stopEntry]
  norm_num [storeC10, taskC10, entryC10, baseTask, baseEntry, truthyQ,
    lookupL, putL, List.find?]

/-- Claim C10 (amended): `update_task` does stamp `updated_at = now` on its
success path, but `stop_timer` and `log_time` mutate the task's
`actual_hours` while leaving `updated_at` at its prior value — those two
mutation paths never set the timestamp. -/
theorem c10_updated_at :
    (∀ (st : Store) (tid : String) (t0 : Task) (ti d : Option String)
        (pr : Option Priority) (sa : Option TaskStatus) (ca : Option TaskCategory)
        (dd : Option (Option Int)) (eh ah : Option ℚ) (tg : Option (List String))
        (asg : Option String) (now : Int),
      lookupL tid st.tasks = some t0 →
      (dd = none ∨ ∃ v, dd = some (some v)) →
      (lookupL tid (update_task st tid ti d pr sa ca dd eh ah tg asg
          now).2.tasks).map Task.updated_at = some now) ∧
    (∀ (st : Store) (eid : String) (e : TimeEntry) (t : Task)
        (tidArg : Option String) (now : Int),
      eid ≠ "" →
      st.time_entries.find? (fun p => p.1 == eid) = some (eid, e) →
      e.end_time = none →
      lookupL e.task_id st.tasks = some t →
      (lookupL e.task_id (stop_timer st (some eid) tidArg now).2.tasks).map
        Task.updated_at = some t.updated_at) ∧
    (∀ (st : Store) (tid : String) (t : Task) (dm : Int) (d : Option String)
        (sArg : Option (Option Int)) (eid : String) (now : Int),
      lookupL tid st.tasks = some t →
      (sArg = none ∨ ∃ v, sArg = some (some v)) →
      (lookupL tid (log_time st tid dm d sArg eid now).2.tasks).map
        Task.updated_at = some t.updated_at) := by
  refine ⟨?_, ?_, ?_⟩
  · intro st tid t0 ti d pr sa ca dd eh ah tg asg now htask hdd
    rcases hdd with rfl | ⟨v, rfl⟩ <;>
      simp [update_task, htask, lookupL_putL_self]
  · intro st eid e t tidArg now heid hfind hopen htask
    have htr : truthyS (some eid) = true := by simp [truthyS, heid]
    simp [stop_timer, htr, hfind, stopEntry, hopen, htask, lookupL_putL_self]
  · intro st tid t dm d sArg eid now htask hs
    rcases hs with rfl | ⟨v, rfl⟩ <;>
      simp [log_time, htask, lookupL_putL_self]

/-- Witness for C10 (amended): a successful `update_task` at time 99 stamps
`updated_at = 99`; stopping a one-hour timer at time 3600 and logging 45
minutes both leave `updated_at` at its prior value 0. -/
theorem c10_witness :
    (lookupL "t1" (update_task storeC9 "t1" none none none none none none
        none none none none 99).2.tasks).map Task.updated_at = some 99 ∧
    (lookupL "t1" (stop_timer storeC10 (some "e1") none 3600).2.tasks).map
      Task.updated_at = some 0 ∧
    (lookupL "t1" (log_time storeC9 "t1" 45 none none "e5" 500).2.tasks).map
      Task.updated_at = some 0 := by
  refine ⟨c10_updated_at.1 storeC9 "t1" taskC9 none none none none none none
    none none none none 99 rfl (Or.inl rfl), ?_, ?_⟩
  · exact c10_updated_at.2.1 storeC10 "e1" entryC10 taskC10 none 3600
      (by decide) rfl rfl rfl
  · exact c10_updated_at.2.2 storeC9 "t1" taskC9 45 none none "e5" 500 rfl
      (Or.inl rfl)

end TaskServer
